import Mathlib

set_option maxRecDepth 100000

/-!
Shallow embedding of the Soroban time-locked savings contract
(`contracts/hello-world/src/lib.rs`) and verification of its specification.

Modelling conventions:
* `i128` values are `Int` with explicit range checks (`i128Checked`);
  Rust's `checked_add`/`checked_sub`/`checked_mul`/`checked_div` become
  `Option Int`-valued functions, and `i128` division truncates toward zero
  (`Int.tdiv`), exactly as in Rust.
* `u64` values are `Nat`; `checked_add` fails above `2^64 - 1`,
  `checked_sub` fails on underflow.
* Addresses are opaque `Nat` identifiers.
* Contract storage (instance + persistent) is a `ContractState` record;
  goal storage is a total function from `(owner, goal_id)` keys to
  `Option SavingsGoal`.
* Each state-mutating entry point returns
  `ContractState × List Event × Except Error α`: the state after the
  execution, the ordered trace of storage writes and token transfers it
  performed, and its result.  The trace order lets us state the
  "mark terminal before transfer" reentrancy-guard property.
* `owner.require_auth()` is the external authorization collaborator and is
  out of scope (it aborts the host transaction when unsatisfied); the
  embedding models the authorized execution path.
-/

namespace TimeLockedSavings

/-- Error enum from the contract (`#[contracterror]`). -/
inductive Error where
  | AlreadyInitialized
  | NotInitialized
  | InvalidAmount
  | InvalidDuration
  | RateTooHigh
  | PenaltyTooHigh
  | Overflow
  | GoalNotFound
  | GoalInactive
  | StillLocked
  | AlreadyWithdrawn
  | Unauthorized
  | TimeError
  | DivisionError
  | Underflow
  | GoalOverflow
deriving Repr, DecidableEq

/-- Smallest `i128` value. -/
def I128_MIN : Int := -(2 ^ 127)

/-- Largest `i128` value. -/
def I128_MAX : Int := 2 ^ 127 - 1

/-- Largest `u64` value. -/
def U64_MAX : Nat := 2 ^ 64 - 1

/-- Range check for the signed 128-bit domain. -/
def i128Checked (x : Int) : Option Int :=
  if I128_MIN ≤ x ∧ x ≤ I128_MAX then some x else none

/-- Models Rust `i128::checked_add`. -/
def i128CheckedAdd (a b : Int) : Option Int := i128Checked (a + b)

/-- Models Rust `i128::checked_sub`. -/
def i128CheckedSub (a b : Int) : Option Int := i128Checked (a - b)

/-- Models Rust `i128::checked_mul`. -/
def i128CheckedMul (a b : Int) : Option Int := i128Checked (a * b)

/-- Models Rust `i128::checked_div`: truncated division, failing on a zero divisor
or on `MIN / -1` (the only overflow case, caught by the range check). -/
def i128CheckedDiv (a b : Int) : Option Int :=
  if b = 0 then none else i128Checked (Int.tdiv a b)

/-- Models Rust `u64::checked_add`. -/
def u64CheckedAdd (a b : Nat) : Option Nat :=
  if a + b ≤ U64_MAX then some (a + b) else none

/-- Models Rust `u64::checked_sub`. -/
def u64CheckedSub (a b : Nat) : Option Nat :=
  if b ≤ a then some (a - b) else none

/-- Constant `MIN_LOCK_DURATION` from the contract: 1 day in seconds. -/
def MIN_LOCK_DURATION : Nat := 86400

/-- Constant `MAX_LOCK_DURATION` from the contract: 10 years in seconds. -/
def MAX_LOCK_DURATION : Nat := 315360000

/-- Constant `MAX_INTEREST_RATE` from the contract: 50% in basis points. -/
def MAX_INTEREST_RATE : Nat := 5000

/-- Constant `BASIS_POINTS` from the contract. -/
def BASIS_POINTS : Int := 10000

/-- Constant `SECONDS_PER_YEAR` from the contract. -/
def SECONDS_PER_YEAR : Int := 31536000

/-- The `SavingsGoal` record (`#[contracttype]`). -/
structure SavingsGoal where
  owner : Nat
  principal : Int
  interest_rate : Nat
  start_time : Nat
  lock_duration : Nat
  unlock_time : Nat
  accrued_interest : Int
  last_compound_time : Nat
  is_active : Bool
deriving Repr, DecidableEq

/-- Contract storage: the instance entries (`Token`, `Admin`,
`EmergencyPenalty`, `GoalCounter`) and the persistent maps
(`Goal(owner, id)` and `UserGoalCount(owner)`). -/
structure ContractState where
  token : Option Nat
  admin : Option Nat
  emergencyPenalty : Option Nat
  goalCounter : Option Nat
  goals : Nat × Nat → Option SavingsGoal
  userGoalCount : Nat → Option Nat

/-- One externally visible effect of an execution, in program order:
a persistent/instance storage write or a token transfer. -/
inductive Event where
  | setGoal (owner goal_id : Nat) (g : SavingsGoal)
  | setGoalCounter (n : Nat)
  | setUserGoalCount (owner n : Nat)
  | transfer (src dst : Nat) (amount : Int)
deriving Repr, DecidableEq

/-- Models `env.storage().persistent().set(&StorageKey::Goal(owner, goal_id), &g)`. -/
def putGoal (s : ContractState) (owner goal_id : Nat) (g : SavingsGoal) :
    ContractState :=
  { s with goals := fun k => if k = (owner, goal_id) then some g else s.goals k }

/-- The spec's `InterestEngine.accrue`: the interest computation of
`compound_interest` (lines 269–275) and `get_current_balance`
(lines 486–492): `balance * rate * elapsed / (SECONDS_PER_YEAR * BASIS_POINTS)`
with checked multiplications before a single checked division. -/
def accrue (balance : Int) (rate : Nat) (elapsed : Nat) : Except Error Int :=
  match i128CheckedMul balance (Int.ofNat rate) with
  | none => .error .Overflow
  | some m1 =>
    match i128CheckedMul m1 (Int.ofNat elapsed) with
    | none => .error .Overflow
    | some m2 =>
      match i128CheckedDiv m2 (SECONDS_PER_YEAR * BASIS_POINTS) with
      | none => .error .DivisionError
      | some i => .ok i

/-- Models `compound_interest` (lines 239–291).  `now` is
`env.ledger().timestamp()`. -/
def compound_interest (s : ContractState) (now owner goal_id : Nat) :
    ContractState × List Event × Except Error Unit :=
  match s.goals (owner, goal_id) with
  | none => (s, [], .error .GoalNotFound)
  | some goal =>
    if goal.is_active = false then (s, [], .error .GoalInactive)
    else
      match u64CheckedSub now goal.last_compound_time with
      | none => (s, [], .error .TimeError)
      | some time_elapsed =>
        if time_elapsed = 0 then (s, [], .ok ())
        else
          match i128CheckedAdd goal.principal goal.accrued_interest with
          | none => (s, [], .error .Overflow)
          | some total_balance =>
            match accrue total_balance goal.interest_rate time_elapsed with
            | .error e => (s, [], .error e)
            | .ok interest =>
              match i128CheckedAdd goal.accrued_interest interest with
              | none => (s, [], .error .Overflow)
              | some newAccrued =>
                let goal' : SavingsGoal :=
                  { goal with accrued_interest := newAccrued,
                              last_compound_time := now }
                (putGoal s owner goal_id goal',
                 [Event.setGoal owner goal_id goal'], .ok ())

/-- Models `withdraw` (lines 305–352).  `contractAddr` is
`env.current_contract_address()`. -/
def withdraw (s : ContractState) (contractAddr now owner goal_id : Nat) :
    ContractState × List Event × Except Error Int :=
  match compound_interest s now owner goal_id with
  | (s1, tr1, .error e) => (s1, tr1, .error e)
  | (s1, tr1, .ok _) =>
    match s1.goals (owner, goal_id) with
    | none => (s1, tr1, .error .GoalNotFound)
    | some goal =>
      if goal.is_active = false then (s1, tr1, .error .AlreadyWithdrawn)
      else if now < goal.unlock_time then (s1, tr1, .error .StillLocked)
      else
        match i128CheckedAdd goal.principal goal.accrued_interest with
        | none => (s1, tr1, .error .Overflow)
        | some total_amount =>
          let goal' : SavingsGoal := { goal with is_active := false }
          let s2 := putGoal s1 owner goal_id goal'
          let tr2 := tr1 ++ [Event.setGoal owner goal_id goal']
          match s2.token with
          | none => (s2, tr2, .error .NotInitialized)
          | some _ =>
            (s2, tr2 ++ [Event.transfer contractAddr owner total_amount],
             .ok total_amount)

/-- Models `emergency_withdraw` (lines 366–434). -/
def emergency_withdraw (s : ContractState)
    (contractAddr now owner goal_id : Nat) :
    ContractState × List Event × Except Error Int :=
  match compound_interest s now owner goal_id with
  | (s1, tr1, .error e) => (s1, tr1, .error e)
  | (s1, tr1, .ok _) =>
    match s1.goals (owner, goal_id) with
    | none => (s1, tr1, .error .GoalNotFound)
    | some goal =>
      if goal.is_active = false then (s1, tr1, .error .AlreadyWithdrawn)
      else
        match i128CheckedAdd goal.principal goal.accrued_interest with
        | none => (s1, tr1, .error .Overflow)
        | some total_balance =>
          let penalty_rate := s1.emergencyPenalty.getD 1000
          match i128CheckedMul total_balance (Int.ofNat penalty_rate) with
          | none => (s1, tr1, .error .Overflow)
          | some pm =>
            match i128CheckedDiv pm BASIS_POINTS with
            | none => (s1, tr1, .error .DivisionError)
            | some penalty =>
              match i128CheckedSub total_balance penalty with
              | none => (s1, tr1, .error .Underflow)
              | some withdrawal_amount =>
                let goal' : SavingsGoal := { goal with is_active := false }
                let s2 := putGoal s1 owner goal_id goal'
                let tr2 := tr1 ++ [Event.setGoal owner goal_id goal']
                match s2.token with
                | none => (s2, tr2, .error .NotInitialized)
                | some _ =>
                  let tr3 := tr2 ++
                    [Event.transfer contractAddr owner withdrawal_amount]
                  match s2.admin with
                  | none => (s2, tr3, .error .NotInitialized)
                  | some adm =>
                    (s2, tr3 ++ [Event.transfer contractAddr adm penalty],
                     .ok withdrawal_amount)

/-- Models `create_goal` (lines 141–227). -/
def create_goal (s : ContractState) (contractAddr now owner : Nat)
    (amount : Int) (lock_duration interest_rate : Nat) :
    ContractState × List Event × Except Error Nat :=
  if amount ≤ 0 then (s, [], .error .InvalidAmount)
  else if lock_duration < MIN_LOCK_DURATION ∨
      MAX_LOCK_DURATION < lock_duration then
    (s, [], .error .InvalidDuration)
  else if MAX_INTEREST_RATE < interest_rate then (s, [], .error .RateTooHigh)
  else
    match u64CheckedAdd now lock_duration with
    | none => (s, [], .error .Overflow)
    | some unlock_time =>
      match s.token with
      | none => (s, [], .error .NotInitialized)
      | some _ =>
        let tr := [Event.transfer owner contractAddr amount]
        let goal_id := s.goalCounter.getD 0
        match u64CheckedAdd goal_id 1 with
        | none => (s, tr, .error .GoalOverflow)
        | some next_goal_id =>
          let goal : SavingsGoal :=
            { owner := owner, principal := amount,
              interest_rate := interest_rate, start_time := now,
              lock_duration := lock_duration, unlock_time := unlock_time,
              accrued_interest := 0, last_compound_time := now,
              is_active := true }
          let s1 := putGoal s owner goal_id goal
          let s2 := { s1 with goalCounter := some next_goal_id }
          let cnt := (s.userGoalCount owner).getD 0
          let s3 := { s2 with userGoalCount :=
            fun o => if o = owner then some (cnt + 1) else s2.userGoalCount o }
          (s3,
           tr ++ [Event.setGoal owner goal_id goal,
                  Event.setGoalCounter next_goal_id,
                  Event.setUserGoalCount owner (cnt + 1)],
           .ok goal_id)

/-- Models `get_current_balance` (lines 464–497): read-only, returns
`Except Error Int` only — by construction it performs no storage write. -/
def get_current_balance (s : ContractState) (now owner goal_id : Nat) :
    Except Error Int :=
  match s.goals (owner, goal_id) with
  | none => .error .GoalNotFound
  | some goal =>
    if goal.is_active = false then .ok 0
    else
      match u64CheckedSub now goal.last_compound_time with
      | none => .error .TimeError
      | some time_elapsed =>
        match i128CheckedAdd goal.principal goal.accrued_interest with
        | none => .error .Overflow
        | some total_balance =>
          match accrue total_balance goal.interest_rate time_elapsed with
          | .error e => .error e
          | .ok pending_interest =>
            match i128CheckedAdd total_balance pending_interest with
            | none => .error .Overflow
            | some v => .ok v

/-- Contract initialization (lines 100–126): included for completeness. -/
def initializeContract (s : ContractState) (token admin emergency_penalty : Nat) :
    ContractState × Except Error Unit :=
  match s.token with
  | some _ => (s, .error .AlreadyInitialized)
  | none =>
    if 5000 < emergency_penalty then (s, .error .PenaltyTooHigh)
    else
      ({ s with token := some token, admin := some admin,
                emergencyPenalty := some emergency_penalty,
                goalCounter := some 0 },
       .ok ())

/-- Whether an event is a token transfer. -/
def isTransfer : Event → Bool
  | .transfer _ _ _ => true
  | _ => false

/-- Whether an event writes the goal `(owner, goal_id)` back with
`is_active = false` (the terminal-state write). -/
def terminalWrite (owner goal_id : Nat) : Event → Bool
  | .setGoal o g gl => o == owner && g == goal_id && gl.is_active == false
  | _ => false

/-- Scans a trace left to right and checks that every transfer event is
preceded by a terminal-state write of the goal `(owner, goal_id)`.
`seen` records whether such a write has occurred already. -/
def markThenTransfer (owner goal_id : Nat) : Bool → List Event → Bool
  | _, [] => true
  | seen, e :: rest =>
    (!isTransfer e || seen) &&
      markThenTransfer owner goal_id (seen || terminalWrite owner goal_id e) rest

/-- The record-level invariant of the spec: positive principal,
non-negative accrued interest, and `unlock_time = start_time +
lock_duration`. -/
def goalInv (g : SavingsGoal) : Prop :=
  0 < g.principal ∧ 0 ≤ g.accrued_interest ∧
    g.unlock_time = g.start_time + g.lock_duration

/-- Every stored goal satisfies `goalInv`. -/
def stateInv (s : ContractState) : Prop :=
  ∀ o gid g, s.goals (o, gid) = some g → goalInv g

/-- The observation named by the spec for `get_current_balance`
equivalence: run `compound_interest` at the same instant, then read
`principal + accrued_interest` (checked) from the stored record. -/
def compound_then_balance (s : ContractState) (now owner goal_id : Nat) :
    Except Error Int :=
  match compound_interest s now owner goal_id with
  | (_, _, .error e) => .error e
  | (s1, _, .ok _) =>
    match s1.goals (owner, goal_id) with
    | none => .error .GoalNotFound
    | some g =>
      match i128CheckedAdd g.principal g.accrued_interest with
      | none => .error .Overflow
      | some v => .ok v

/-- A concrete active goal used to exercise the operations. -/
def sampleGoal : SavingsGoal :=
  { owner := 2, principal := 1000, interest_rate := 0, start_time := 0,
    lock_duration := 86400, unlock_time := 86400, accrued_interest := 0,
    last_compound_time := 0, is_active := true }

/-- A concrete initialized contract state holding `sampleGoal` at key
`(2, 0)`. -/
def sampleState : ContractState :=
  { token := some 100, admin := some 1, emergencyPenalty := some 1000,
    goalCounter := some 1,
    goals := fun k => if k = (2, 0) then some sampleGoal else none,
    userGoalCount := fun o => if o = 2 then some 1 else none }

/-- The state after a successful withdrawal of `sampleGoal` at its
unlock time. -/
def sampleAfter : ContractState := (withdraw sampleState 99 86400 2 0).1

/-- An active goal whose balance is so large that multiplying it by its
rate leaves the `i128` domain. -/
def bigGoal : SavingsGoal :=
  { owner := 2, principal := 2 ^ 127 - 1, interest_rate := 2, start_time := 0,
    lock_duration := 86400, unlock_time := 86400, accrued_interest := 0,
    last_compound_time := 0, is_active := true }

/-- An initialized contract state holding `bigGoal` at key `(2, 0)`. -/
def bigState : ContractState :=
  { token := some 100, admin := some 1, emergencyPenalty := some 1000,
    goalCounter := some 1,
    goals := fun k => if k = (2, 0) then some bigGoal else none,
    userGoalCount := fun o => if o = 2 then some 1 else none }

/-! ## Helper lemmas -/

lemma putGoal_goals (s : ContractState) (owner goal_id : Nat)
    (g : SavingsGoal) (k : Nat × Nat) :
    (putGoal s owner goal_id g).goals k =
      if k = (owner, goal_id) then some g else s.goals k := rfl

lemma putGoal_token (s : ContractState) (owner goal_id : Nat)
    (g : SavingsGoal) : (putGoal s owner goal_id g).token = s.token := rfl

lemma putGoal_admin (s : ContractState) (owner goal_id : Nat)
    (g : SavingsGoal) : (putGoal s owner goal_id g).admin = s.admin := rfl

lemma putGoal_penalty (s : ContractState) (owner goal_id : Nat)
    (g : SavingsGoal) :
    (putGoal s owner goal_id g).emergencyPenalty = s.emergencyPenalty := rfl

lemma i128Checked_eq_some {x y : Int} (h : i128Checked x = some y) :
    y = x ∧ I128_MIN ≤ x ∧ x ≤ I128_MAX := by
  unfold i128Checked at h
  split at h
  · exact ⟨(Option.some.injEq _ _ ▸ h).symm, by assumption⟩
  · exact absurd h (by simp)

lemma i128Checked_of_range {x : Int} (h1 : I128_MIN ≤ x) (h2 : x ≤ I128_MAX) :
    i128Checked x = some x := by
  unfold i128Checked
  rw [if_pos ⟨h1, h2⟩]

/-- Truncating division by a positive divisor stays inside the `i128`
range of the dividend. -/
lemma tdiv_range {a d : Int} (h1 : I128_MIN ≤ a) (h2 : a ≤ I128_MAX)
    (hd : 0 < d) : I128_MIN ≤ Int.tdiv a d ∧ Int.tdiv a d ≤ I128_MAX := by
  rcases le_or_lt 0 a with ha | ha
  · rw [Int.tdiv_eq_ediv ha hd.le]
    have hnn : 0 ≤ a / d := Int.ediv_nonneg ha hd.le
    have hle : a / d ≤ a := Int.ediv_le_self d ha
    constructor
    · calc I128_MIN ≤ 0 := by norm_num [I128_MIN]
        _ ≤ a / d := hnn
    · exact hle.trans h2
  · have hna : 0 ≤ -a := by omega
    have hrw : Int.tdiv a d = -(Int.tdiv (-a) d) := by
      rw [← Int.neg_tdiv, neg_neg]
    rw [hrw, Int.tdiv_eq_ediv hna hd.le]
    have hnn : 0 ≤ (-a) / d := Int.ediv_nonneg hna hd.le
    have hle : (-a) / d ≤ -a := Int.ediv_le_self d hna
    constructor
    · omega
    · have : (0 : Int) ≤ I128_MAX := by norm_num [I128_MAX]
      omega

/-- The combined divisor of the interest formula is positive. -/
lemma divisor_pos : (0 : Int) < SECONDS_PER_YEAR * BASIS_POINTS := by
  norm_num [SECONDS_PER_YEAR, BASIS_POINTS]

/-- Checked division by a positive constant never fails on an in-range
dividend. -/
lemma i128CheckedDiv_pos {a d : Int} (h1 : I128_MIN ≤ a) (h2 : a ≤ I128_MAX)
    (hd : 0 < d) : i128CheckedDiv a d = some (Int.tdiv a d) := by
  unfold i128CheckedDiv
  rw [if_neg (by omega)]
  exact i128Checked_of_range (tdiv_range h1 h2 hd).1 (tdiv_range h1 h2 hd).2

lemma accrue_eq_of_muls {b : Int} {rate elapsed : Nat} {m1 m2 : Int}
    (h1 : i128CheckedMul b (Int.ofNat rate) = some m1)
    (h2 : i128CheckedMul m1 (Int.ofNat elapsed) = some m2) :
    accrue b rate elapsed =
      .ok (Int.tdiv m2 (SECONDS_PER_YEAR * BASIS_POINTS)) := by
  have hr := i128Checked_eq_some h2
  unfold accrue
  simp only [h1, h2,
    i128CheckedDiv_pos (hr.1 ▸ hr.2.1) (hr.1 ▸ hr.2.2) divisor_pos]

lemma accrue_overflow_fst {b : Int} {rate elapsed : Nat}
    (h1 : i128CheckedMul b (Int.ofNat rate) = none) :
    accrue b rate elapsed = .error .Overflow := by
  unfold accrue
  simp only [h1]

lemma accrue_overflow_snd {b : Int} {rate elapsed : Nat} {m1 : Int}
    (h1 : i128CheckedMul b (Int.ofNat rate) = some m1)
    (h2 : i128CheckedMul m1 (Int.ofNat elapsed) = none) :
    accrue b rate elapsed = .error .Overflow := by
  unfold accrue
  simp only [h1, h2]

/-- Every successful `accrue` result is the truncated quotient of the
double product, and the double product was in range. -/
lemma accrue_ok_elim {b : Int} {rate elapsed : Nat} {i : Int}
    (h : accrue b rate elapsed = .ok i) :
    i = Int.tdiv (b * Int.ofNat rate * Int.ofNat elapsed)
          (SECONDS_PER_YEAR * BASIS_POINTS) ∧
      I128_MIN ≤ b * Int.ofNat rate * Int.ofNat elapsed ∧
      b * Int.ofNat rate * Int.ofNat elapsed ≤ I128_MAX := by
  unfold accrue at h
  split at h
  · exact absurd h (by simp)
  · rename_i m1 hm1
    split at h
    · exact absurd h (by simp)
    · rename_i m2 hm2
      split at h
      · exact absurd h (by simp)
      · rename_i q hq
        obtain ⟨he1, hr1, hr1'⟩ := i128Checked_eq_some hm1
        have hm2' : i128Checked (m1 * Int.ofNat elapsed) = some m2 := hm2
        obtain ⟨he2, hr2, hr2'⟩ := i128Checked_eq_some hm2'
        have hq' : i128CheckedDiv m2 (SECONDS_PER_YEAR * BASIS_POINTS)
            = some q := hq
        rw [i128CheckedDiv_pos (he2 ▸ hr2) (he2 ▸ hr2') divisor_pos] at hq'
        have : q = Int.tdiv m2 (SECONDS_PER_YEAR * BASIS_POINTS) :=
          (Option.some.injEq _ _ ▸ hq').symm
        have hiq : i = q := by
          injection h with h'
          exact h'.symm
        subst hiq this he2 he1
        exact ⟨rfl, hr2, hr2'⟩

/-- Interest accrued on a non-negative balance is non-negative. -/
lemma accrue_nonneg {b : Int} {rate elapsed : Nat} {i : Int}
    (hb : 0 ≤ b) (h : accrue b rate elapsed = .ok i) : 0 ≤ i := by
  obtain ⟨hi, _, _⟩ := accrue_ok_elim h
  subst hi
  exact Int.tdiv_nonneg
    (mul_nonneg (mul_nonneg hb (Int.ofNat_nonneg _)) (Int.ofNat_nonneg _))
    divisor_pos.le

lemma u64CheckedSub_eq_some {a b c : Nat} (h : u64CheckedSub a b = some c) :
    b ≤ a ∧ c = a - b := by
  unfold u64CheckedSub at h
  split at h
  · exact ⟨by assumption, ((Option.some.injEq _ _).mp h).symm⟩
  · exact absurd h (by simp)

/-- Shape of any `compound_interest` execution: either the state and
trace are untouched, or the execution rewrote the goal record of an
active, already-stored goal with the freshly accrued interest and
emitted exactly that one write event. -/
lemma compound_cases {s s' : ContractState} {tr : List Event}
    {r : Except Error Unit} {now owner goal_id : Nat}
    (h : compound_interest s now owner goal_id = (s', tr, r)) :
    (s' = s ∧ tr = []) ∨
    ∃ goal total interest na,
      s.goals (owner, goal_id) = some goal ∧
      goal.is_active = true ∧
      goal.last_compound_time ≤ now ∧
      i128CheckedAdd goal.principal goal.accrued_interest = some total ∧
      accrue total goal.interest_rate (now - goal.last_compound_time)
        = .ok interest ∧
      i128CheckedAdd goal.accrued_interest interest = some na ∧
      s' = putGoal s owner goal_id
        { goal with accrued_interest := na, last_compound_time := now } ∧
      tr = [Event.setGoal owner goal_id
        { goal with accrued_interest := na, last_compound_time := now }] ∧
      r = .ok () := by
  unfold compound_interest at h
  split at h
  · simp only [Prod.mk.injEq] at h
    exact Or.inl ⟨h.1.symm, h.2.1.symm⟩
  · rename_i goal hgoal
    split at h
    · simp only [Prod.mk.injEq] at h
      exact Or.inl ⟨h.1.symm, h.2.1.symm⟩
    · rename_i hact
      split at h
      · simp only [Prod.mk.injEq] at h
        exact Or.inl ⟨h.1.symm, h.2.1.symm⟩
      · rename_i te hte
        obtain ⟨hle, hteq⟩ := u64CheckedSub_eq_some hte
        split at h
        · simp only [Prod.mk.injEq] at h
          exact Or.inl ⟨h.1.symm, h.2.1.symm⟩
        · split at h
          · simp only [Prod.mk.injEq] at h
            exact Or.inl ⟨h.1.symm, h.2.1.symm⟩
          · rename_i total htotal
            split at h
            · simp only [Prod.mk.injEq] at h
              exact Or.inl ⟨h.1.symm, h.2.1.symm⟩
            · rename_i interest hacc
              split at h
              · simp only [Prod.mk.injEq] at h
                exact Or.inl ⟨h.1.symm, h.2.1.symm⟩
              · rename_i na hna
                simp only [Prod.mk.injEq] at h
                refine Or.inr ⟨goal, total, interest, na, hgoal, ?_, hle,
                  htotal, hteq ▸ hacc, hna,
                  h.1.symm, h.2.1.symm, h.2.2.symm⟩
                simpa using hact

/-- The operation `compound_interest` never performs a token transfer. -/
lemma compound_no_transfer {s s' : ContractState} {tr : List Event}
    {r : Except Error Unit} {now owner goal_id : Nat}
    (h : compound_interest s now owner goal_id = (s', tr, r)) :
    ∀ e ∈ tr, isTransfer e = false := by
  rcases compound_cases h with ⟨_, htr⟩ |
    ⟨g, t, i, na, _, _, _, _, _, _, _, htr, _⟩ <;> subst htr
  · intro e he
    exact absurd he (by simp)
  · intro e he
    simp only [List.mem_singleton] at he
    subst he
    rfl

/-- The operation `compound_interest` leaves the instance storage unchanged. -/
lemma compound_instance {s s' : ContractState} {tr : List Event}
    {r : Except Error Unit} {now owner goal_id : Nat}
    (h : compound_interest s now owner goal_id = (s', tr, r)) :
    s'.token = s.token ∧ s'.admin = s.admin ∧
      s'.emergencyPenalty = s.emergencyPenalty := by
  rcases compound_cases h with ⟨hs, _⟩ |
    ⟨g, t, i, na, _, _, _, _, _, _, hs, _, _⟩ <;>
    subst hs <;> exact ⟨rfl, rfl, rfl⟩

/-- Once a terminal write has been seen, the guard accepts any suffix. -/
lemma mtt_true (owner goal_id : Nat) (l : List Event) :
    markThenTransfer owner goal_id true l = true := by
  induction l with
  | nil => rfl
  | cons e rest ih => simp [markThenTransfer, ih]

/-- A trace without transfers always satisfies the guard. -/
lemma mtt_no_transfer (owner goal_id : Nat) {tr : List Event}
    (hnt : ∀ e ∈ tr, isTransfer e = false) (b : Bool) :
    markThenTransfer owner goal_id b tr = true := by
  induction tr generalizing b with
  | nil => rfl
  | cons e rest ih =>
    have he := hnt e (by simp)
    simp [markThenTransfer, he, ih fun e' h' => hnt e' (by simp [h'])]

/-- Prepending a transfer-free trace preserves the guard. -/
lemma mtt_append (owner goal_id : Nat) {tr l : List Event}
    (hnt : ∀ e ∈ tr, isTransfer e = false)
    (hl : ∀ b, markThenTransfer owner goal_id b l = true) (b : Bool) :
    markThenTransfer owner goal_id b (tr ++ l) = true := by
  induction tr generalizing b with
  | nil => simpa using hl b
  | cons e rest ih =>
    have he := hnt e (by simp)
    simp [markThenTransfer, he, ih (fun e' h' => hnt e' (by simp [h']))]

/-- A trace headed by the terminal write satisfies the guard whatever
follows. -/
lemma mtt_terminal_cons (owner goal_id : Nat) {e : Event}
    (ht : terminalWrite owner goal_id e = true)
    (hnt : isTransfer e = false) (rest : List Event) (b : Bool) :
    markThenTransfer owner goal_id b (e :: rest) = true := by
  simp [markThenTransfer, hnt, ht, mtt_true]

/-- The terminal write of the goal is recognized by `terminalWrite`. -/
lemma terminalWrite_setGoal (owner goal_id : Nat) {g : SavingsGoal}
    (h : g.is_active = false) :
    terminalWrite owner goal_id (Event.setGoal owner goal_id g) = true := by
  simp [terminalWrite, h]

/-- Every `withdraw` trace satisfies the reentrancy-guard ordering. -/
lemma withdraw_guard {s s' : ContractState} {caddr now owner goal_id : Nat}
    {tr : List Event} {r : Except Error Int}
    (h : withdraw s caddr now owner goal_id = (s', tr, r)) :
    markThenTransfer owner goal_id false tr = true := by
  unfold withdraw at h
  split at h
  · rename_i s1 tr1 e heq
    simp only [Prod.mk.injEq] at h
    exact h.2.1 ▸ mtt_no_transfer owner goal_id (compound_no_transfer heq) false
  · rename_i s1 tr1 u heq
    split at h
    · simp only [Prod.mk.injEq] at h
      exact h.2.1 ▸
        mtt_no_transfer owner goal_id (compound_no_transfer heq) false
    · rename_i goal hgoal
      split at h
      · simp only [Prod.mk.injEq] at h
        exact h.2.1 ▸
          mtt_no_transfer owner goal_id (compound_no_transfer heq) false
      · split at h
        · simp only [Prod.mk.injEq] at h
          exact h.2.1 ▸
            mtt_no_transfer owner goal_id (compound_no_transfer heq) false
        · split at h
          · simp only [Prod.mk.injEq] at h
            exact h.2.1 ▸
              mtt_no_transfer owner goal_id (compound_no_transfer heq) false
          · rename_i total htotal
            dsimp only at h
            split at h
            · simp only [Prod.mk.injEq] at h
              refine h.2.1 ▸ mtt_no_transfer owner goal_id ?_ false
              intro e he
              rcases List.mem_append.mp he with h' | h'
              · exact compound_no_transfer heq e h'
              · simp only [List.mem_singleton] at h'
                subst h'
                rfl
            · simp only [Prod.mk.injEq] at h
              refine h.2.1 ▸ ?_
              rw [List.append_assoc]
              exact mtt_append owner goal_id (compound_no_transfer heq)
                (fun b => mtt_terminal_cons owner goal_id
                  (terminalWrite_setGoal owner goal_id rfl) rfl _ b) false

/-- Every `emergency_withdraw` trace satisfies the reentrancy-guard
ordering. -/
lemma emergency_guard {s s' : ContractState}
    {caddr now owner goal_id : Nat} {tr : List Event} {r : Except Error Int}
    (h : emergency_withdraw s caddr now owner goal_id = (s', tr, r)) :
    markThenTransfer owner goal_id false tr = true := by
  unfold emergency_withdraw at h
  split at h
  · rename_i s1 tr1 e heq
    simp only [Prod.mk.injEq] at h
    exact h.2.1 ▸ mtt_no_transfer owner goal_id (compound_no_transfer heq) false
  · rename_i s1 tr1 u heq
    split at h
    · simp only [Prod.mk.injEq] at h
      exact h.2.1 ▸
        mtt_no_transfer owner goal_id (compound_no_transfer heq) false
    · rename_i goal hgoal
      split at h
      · simp only [Prod.mk.injEq] at h
        exact h.2.1 ▸
          mtt_no_transfer owner goal_id (compound_no_transfer heq) false
      · split at h
        · simp only [Prod.mk.injEq] at h
          exact h.2.1 ▸
            mtt_no_transfer owner goal_id (compound_no_transfer heq) false
        · rename_i total htotal
          dsimp only at h
          split at h
          · simp only [Prod.mk.injEq] at h
            exact h.2.1 ▸
              mtt_no_transfer owner goal_id (compound_no_transfer heq) false
          · rename_i pm hpm
            split at h
            · simp only [Prod.mk.injEq] at h
              exact h.2.1 ▸
                mtt_no_transfer owner goal_id (compound_no_transfer heq) false
            · rename_i penalty hpen
              split at h
              · simp only [Prod.mk.injEq] at h
                exact h.2.1 ▸
                  mtt_no_transfer owner goal_id (compound_no_transfer heq) false
              · rename_i wa hwa
                split at h
                · simp only [Prod.mk.injEq] at h
                  refine h.2.1 ▸ mtt_no_transfer owner goal_id ?_ false
                  intro e he
                  rcases List.mem_append.mp he with h' | h'
                  · exact compound_no_transfer heq e h'
                  · simp only [List.mem_singleton] at h'
                    subst h'
                    rfl
                · split at h
                  · simp only [Prod.mk.injEq] at h
                    refine h.2.1 ▸ ?_
                    rw [List.append_assoc]
                    exact mtt_append owner goal_id (compound_no_transfer heq)
                      (fun b => mtt_terminal_cons owner goal_id
                        (terminalWrite_setGoal owner goal_id rfl) rfl _ b) false
                  · rename_i adm hadm
                    simp only [Prod.mk.injEq] at h
                    refine h.2.1 ▸ ?_
                    rw [List.append_assoc, List.append_assoc]
                    exact mtt_append owner goal_id (compound_no_transfer heq)
                      (fun b => mtt_terminal_cons owner goal_id
                        (terminalWrite_setGoal owner goal_id rfl) rfl _ b) false

lemma stateInv_putGoal {s : ContractState} (hs : stateInv s)
    {g : SavingsGoal} (hg : goalInv g) (owner goal_id : Nat) :
    stateInv (putGoal s owner goal_id g) := by
  intro o' gid' g' h'
  rw [putGoal_goals] at h'
  split at h'
  · cases h'
    exact hg
  · exact hs o' gid' g' h'

/-- The operation `compound_interest` preserves the state invariant. -/
lemma compound_inv {s s' : ContractState} {tr : List Event}
    {r : Except Error Unit} {now owner goal_id : Nat} (hs : stateInv s)
    (h : compound_interest s now owner goal_id = (s', tr, r)) :
    stateInv s' := by
  rcases compound_cases h with ⟨hseq, _⟩ |
    ⟨goal, total, interest, na, hgoal, _, _, htotal, hacc, hna, hseq, _, _⟩
  · exact hseq ▸ hs
  · obtain ⟨hp, ha, hu⟩ := hs owner goal_id goal hgoal
    obtain ⟨hteq, _, _⟩ := i128Checked_eq_some htotal
    obtain ⟨hnaeq, _, _⟩ := i128Checked_eq_some hna
    have hint : 0 ≤ interest :=
      accrue_nonneg (by omega) hacc
    subst hseq
    refine stateInv_putGoal hs ?_ owner goal_id
    have hna0 : 0 ≤ na := by omega
    exact ⟨hp, hna0, hu⟩

/-- Shape of any `withdraw` or `emergency_withdraw` execution with
respect to the state: the post-compound state is kept as is, or the
looked-up active record is rewritten with `is_active := false`. -/
lemma withdraw_state_cases {s s' : ContractState}
    {caddr now owner goal_id : Nat} {tr : List Event} {r : Except Error Int}
    (h : withdraw s caddr now owner goal_id = (s', tr, r)) :
    ∃ s1 tr1 r1, compound_interest s now owner goal_id = (s1, tr1, r1) ∧
      ((s' = s1 ∧ ∃ e, r = .error e) ∨
       ∃ goal, s1.goals (owner, goal_id) = some goal ∧
         goal.is_active = true ∧
         s' = putGoal s1 owner goal_id { goal with is_active := false }) := by
  unfold withdraw at h
  split at h
  · rename_i s1 tr1 e heq
    simp only [Prod.mk.injEq] at h
    exact ⟨s1, tr1, .error e, heq, Or.inl ⟨h.1.symm, e, h.2.2.symm⟩⟩
  · rename_i s1 tr1 u heq
    refine ⟨s1, tr1, .ok u, heq, ?_⟩
    split at h
    · simp only [Prod.mk.injEq] at h
      exact Or.inl ⟨h.1.symm, _, h.2.2.symm⟩
    · rename_i goal hgoal
      split at h
      · simp only [Prod.mk.injEq] at h
        exact Or.inl ⟨h.1.symm, _, h.2.2.symm⟩
      · rename_i hact
        split at h
        · simp only [Prod.mk.injEq] at h
          exact Or.inl ⟨h.1.symm, _, h.2.2.symm⟩
        · split at h
          · simp only [Prod.mk.injEq] at h
            exact Or.inl ⟨h.1.symm, _, h.2.2.symm⟩
          · rename_i total htotal
            dsimp only at h
            split at h <;> simp only [Prod.mk.injEq] at h <;>
              exact Or.inr ⟨goal, hgoal, by simpa using hact, h.1.symm⟩

/-- Same shape lemma for `emergency_withdraw`. -/
lemma emergency_state_cases {s s' : ContractState}
    {caddr now owner goal_id : Nat} {tr : List Event} {r : Except Error Int}
    (h : emergency_withdraw s caddr now owner goal_id = (s', tr, r)) :
    ∃ s1 tr1 r1, compound_interest s now owner goal_id = (s1, tr1, r1) ∧
      ((s' = s1 ∧ ∃ e, r = .error e) ∨
       ∃ goal, s1.goals (owner, goal_id) = some goal ∧
         goal.is_active = true ∧
         s' = putGoal s1 owner goal_id { goal with is_active := false }) := by
  unfold emergency_withdraw at h
  split at h
  · rename_i s1 tr1 e heq
    simp only [Prod.mk.injEq] at h
    exact ⟨s1, tr1, .error e, heq, Or.inl ⟨h.1.symm, e, h.2.2.symm⟩⟩
  · rename_i s1 tr1 u heq
    refine ⟨s1, tr1, .ok u, heq, ?_⟩
    split at h
    · simp only [Prod.mk.injEq] at h
      exact Or.inl ⟨h.1.symm, _, h.2.2.symm⟩
    · rename_i goal hgoal
      split at h
      · simp only [Prod.mk.injEq] at h
        exact Or.inl ⟨h.1.symm, _, h.2.2.symm⟩
      · rename_i hact
        split at h
        · simp only [Prod.mk.injEq] at h
          exact Or.inl ⟨h.1.symm, _, h.2.2.symm⟩
        · rename_i total htotal
          dsimp only at h
          split at h
          · simp only [Prod.mk.injEq] at h
            exact Or.inl ⟨h.1.symm, _, h.2.2.symm⟩
          · rename_i pm hpm
            split at h
            · simp only [Prod.mk.injEq] at h
              exact Or.inl ⟨h.1.symm, _, h.2.2.symm⟩
            · rename_i penalty hpen
              split at h
              · simp only [Prod.mk.injEq] at h
                exact Or.inl ⟨h.1.symm, _, h.2.2.symm⟩
              · rename_i wa hwa
                split at h <;> [skip; (split at h)] <;>
                  simp only [Prod.mk.injEq] at h <;>
                  exact Or.inr ⟨goal, hgoal, by simpa using hact, h.1.symm⟩

lemma u64CheckedAdd_eq_some {a b c : Nat} (h : u64CheckedAdd a b = some c) :
    c = a + b := by
  unfold u64CheckedAdd at h
  split at h
  · exact ((Option.some.injEq _ _).mp h).symm
  · exact absurd h (by simp)

lemma i128CheckedDiv_eq_some {a b c : Int} (h : i128CheckedDiv a b = some c) :
    c = Int.tdiv a b := by
  unfold i128CheckedDiv at h
  split at h
  · exact absurd h (by simp)
  · exact (i128Checked_eq_some h).1

/-- The operation `withdraw` preserves the state invariant. -/
lemma withdraw_inv {s s' : ContractState} {caddr now owner goal_id : Nat}
    {tr : List Event} {r : Except Error Int} (hs : stateInv s)
    (h : withdraw s caddr now owner goal_id = (s', tr, r)) :
    stateInv s' := by
  obtain ⟨s1, tr1, r1, hc, hcase⟩ := withdraw_state_cases h
  have hs1 := compound_inv hs hc
  rcases hcase with ⟨hseq, _⟩ | ⟨goal, hgoal, hact, hseq⟩
  · exact hseq ▸ hs1
  · subst hseq
    obtain ⟨hp, ha, hu⟩ := hs1 owner goal_id goal hgoal
    refine stateInv_putGoal hs1 ?_ owner goal_id
    exact ⟨hp, ha, hu⟩

/-- The operation `emergency_withdraw` preserves the state invariant. -/
lemma emergency_inv {s s' : ContractState} {caddr now owner goal_id : Nat}
    {tr : List Event} {r : Except Error Int} (hs : stateInv s)
    (h : emergency_withdraw s caddr now owner goal_id = (s', tr, r)) :
    stateInv s' := by
  obtain ⟨s1, tr1, r1, hc, hcase⟩ := emergency_state_cases h
  have hs1 := compound_inv hs hc
  rcases hcase with ⟨hseq, _⟩ | ⟨goal, hgoal, hact, hseq⟩
  · exact hseq ▸ hs1
  · subst hseq
    obtain ⟨hp, ha, hu⟩ := hs1 owner goal_id goal hgoal
    refine stateInv_putGoal hs1 ?_ owner goal_id
    exact ⟨hp, ha, hu⟩

/-- The operation `create_goal` preserves the state invariant and the record it
creates satisfies it. -/
lemma create_inv {s s' : ContractState} {caddr now owner : Nat}
    {amount : Int} {lock_duration interest_rate : Nat} {tr : List Event}
    {r : Except Error Nat} (hs : stateInv s)
    (h : create_goal s caddr now owner amount lock_duration interest_rate
      = (s', tr, r)) :
    stateInv s' := by
  unfold create_goal at h
  split at h
  · simp only [Prod.mk.injEq] at h
    exact h.1 ▸ hs
  · rename_i hamt
    split at h
    · simp only [Prod.mk.injEq] at h
      exact h.1 ▸ hs
    · split at h
      · simp only [Prod.mk.injEq] at h
        exact h.1 ▸ hs
      · split at h
        · simp only [Prod.mk.injEq] at h
          exact h.1 ▸ hs
        · rename_i unlock hunlock
          split at h
          · simp only [Prod.mk.injEq] at h
            exact h.1 ▸ hs
          · dsimp only at h
            split at h
            · simp only [Prod.mk.injEq] at h
              exact h.1 ▸ hs
            · rename_i next hnext
              simp only [Prod.mk.injEq] at h
              refine h.1 ▸ ?_
              intro o' gid' g' h'
              have h'' : (putGoal s owner (s.goalCounter.getD 0)
                  { owner := owner, principal := amount,
                    interest_rate := interest_rate, start_time := now,
                    lock_duration := lock_duration, unlock_time := unlock,
                    accrued_interest := 0, last_compound_time := now,
                    is_active := true }).goals (o', gid') = some g' := h'
              rw [putGoal_goals] at h''
              split at h''
              · cases h''
                have hamt' : (0 : Int) < amount := by omega
                exact ⟨hamt', le_refl 0, u64CheckedAdd_eq_some hunlock⟩
              · exact hs o' gid' g' h''

/-- On an inactive goal, `compound_interest` fails `GoalInactive`
without touching the state. -/
lemma compound_on_inactive {s : ContractState} {now owner goal_id : Nat}
    {goal : SavingsGoal} (hgoal : s.goals (owner, goal_id) = some goal)
    (hact : goal.is_active = false) :
    compound_interest s now owner goal_id = (s, [], .error .GoalInactive) := by
  unfold compound_interest
  rw [hgoal]
  simp [hact]

/-- On an inactive goal, `withdraw` fails `GoalInactive` (via the
initial compounding), not `AlreadyWithdrawn`. -/
lemma withdraw_on_inactive {s : ContractState}
    {caddr now owner goal_id : Nat} {goal : SavingsGoal}
    (hgoal : s.goals (owner, goal_id) = some goal)
    (hact : goal.is_active = false) :
    withdraw s caddr now owner goal_id = (s, [], .error .GoalInactive) := by
  unfold withdraw
  rw [compound_on_inactive hgoal hact]

/-- On an inactive goal, `emergency_withdraw` fails `GoalInactive` (via
the initial compounding), not `AlreadyWithdrawn`. -/
lemma emergency_on_inactive {s : ContractState}
    {caddr now owner goal_id : Nat} {goal : SavingsGoal}
    (hgoal : s.goals (owner, goal_id) = some goal)
    (hact : goal.is_active = false) :
    emergency_withdraw s caddr now owner goal_id
      = (s, [], .error .GoalInactive) := by
  unfold emergency_withdraw
  rw [compound_on_inactive hgoal hact]

/-- After a successful `withdraw`, the goal record is stored with
`is_active = false`. -/
lemma withdraw_ok_inactive {s s' : ContractState}
    {caddr now owner goal_id : Nat} {tr : List Event} {w : Int}
    (h : withdraw s caddr now owner goal_id = (s', tr, .ok w)) :
    ∃ g, s'.goals (owner, goal_id) = some g ∧ g.is_active = false := by
  obtain ⟨s1, tr1, r1, hc, hcase⟩ := withdraw_state_cases h
  rcases hcase with ⟨_, e, he⟩ | ⟨goal, hgoal, hact, hseq⟩
  · exact absurd he (by simp)
  · subst hseq
    refine ⟨{ goal with is_active := false }, ?_, rfl⟩
    rw [putGoal_goals, if_pos rfl]

/-- After a successful `emergency_withdraw`, the goal record is stored
with `is_active = false`. -/
lemma emergency_ok_inactive {s s' : ContractState}
    {caddr now owner goal_id : Nat} {tr : List Event} {w : Int}
    (h : emergency_withdraw s caddr now owner goal_id = (s', tr, .ok w)) :
    ∃ g, s'.goals (owner, goal_id) = some g ∧ g.is_active = false := by
  obtain ⟨s1, tr1, r1, hc, hcase⟩ := emergency_state_cases h
  rcases hcase with ⟨_, e, he⟩ | ⟨goal, hgoal, hact, hseq⟩
  · exact absurd he (by simp)
  · subst hseq
    refine ⟨{ goal with is_active := false }, ?_, rfl⟩
    rw [putGoal_goals, if_pos rfl]

/-- The concrete sample state satisfies the state invariant. -/
lemma sampleState_inv : stateInv sampleState := by
  intro o gid g h
  unfold sampleState at h
  dsimp only at h
  split at h
  · cases h
    exact ⟨by norm_num [sampleGoal], by norm_num [sampleGoal],
      by norm_num [sampleGoal]⟩
  · exact absurd h (by simp)

/-! ## Claim theorems -/

/-- C1 (counterexample): after a successful `withdraw`, a second
`withdraw` (or `emergency_withdraw`) on the same goal fails with
`GoalInactive` — not `AlreadyWithdrawn` as the claim states — because
the initial `compound_interest` call rejects the inactive goal first. -/
theorem claim_C1_counterexample :
    (withdraw sampleState 99 86400 2 0).2.2 = .ok 1000 ∧
    (withdraw sampleAfter 99 86400 2 0).2.2 = .error .GoalInactive ∧
    (emergency_withdraw sampleAfter 99 86400 2 0).2.2
      = .error .GoalInactive ∧
    Error.GoalInactive ≠ Error.AlreadyWithdrawn :=
  ⟨rfl, rfl, rfl, by decide⟩

/-- C1 (amended): for every goal on which a `withdraw` or
`emergency_withdraw` has already succeeded, every subsequent `withdraw`
or `emergency_withdraw` on that goal fails with `GoalInactive` (raised
by the initial `compound_interest` reload; the `AlreadyWithdrawn`
branch is unreachable), leaving the state untouched. -/
theorem claim_C1_subsequent_calls_fail {s s' : ContractState}
    {caddr now owner goal_id : Nat} {tr : List Event} {w : Int}
    (h : withdraw s caddr now owner goal_id = (s', tr, .ok w) ∨
         emergency_withdraw s caddr now owner goal_id = (s', tr, .ok w)) :
    ∀ caddr' now' : Nat,
      withdraw s' caddr' now' owner goal_id
        = (s', [], .error .GoalInactive) ∧
      emergency_withdraw s' caddr' now' owner goal_id
        = (s', [], .error .GoalInactive) := by
  obtain ⟨g, hg, hact⟩ := h.elim withdraw_ok_inactive emergency_ok_inactive
  exact fun caddr' now' =>
    ⟨withdraw_on_inactive hg hact, emergency_on_inactive hg hact⟩

/-- C1 witness: the amended claim at the concrete post-withdrawal
state. -/
theorem claim_C1_witness :
    withdraw sampleAfter 99 86400 2 0
      = (sampleAfter, [], .error .GoalInactive) ∧
    emergency_withdraw sampleAfter 99 86400 2 0
      = (sampleAfter, [], .error .GoalInactive) :=
  @claim_C1_subsequent_calls_fail sampleState sampleAfter 99 86400 2 0
    ((withdraw sampleState 99 86400 2 0).2.1) 1000 (Or.inl rfl) 99 86400

/-- C2: in every execution of `withdraw` and of `emergency_withdraw`,
every token transfer in the emitted effect trace is preceded by the
storage write of the goal record with `is_active = false`; no transfer
ever precedes the terminal-state write. -/
theorem claim_C2_terminal_write_precedes_transfer :
    ∀ (s : ContractState) (contractAddr now owner goal_id : Nat),
      markThenTransfer owner goal_id false
        (withdraw s contractAddr now owner goal_id).2.1 = true ∧
      markThenTransfer owner goal_id false
        (emergency_withdraw s contractAddr now owner goal_id).2.1 = true := by
  intro s contractAddr now owner goal_id
  constructor
  · rcases hw : withdraw s contractAddr now owner goal_id with ⟨s', tr, r⟩
    exact withdraw_guard hw
  · rcases hw : emergency_withdraw s contractAddr now owner goal_id with
      ⟨s', tr, r⟩
    exact emergency_guard hw

/-- C2 witness: the guard at the concrete sample state. -/
theorem claim_C2_witness :
    markThenTransfer 2 0 false (withdraw sampleState 99 86400 2 0).2.1
      = true ∧
    markThenTransfer 2 0 false
      (emergency_withdraw sampleState 99 86400 2 0).2.1 = true :=
  claim_C2_terminal_write_precedes_transfer sampleState 99 86400 2 0

/-- C4: the record invariants (`principal > 0`,
`accrued_interest ≥ 0`, `unlock_time = start_time + lock_duration`)
hold for every stored goal after any of the four mutating operations,
given they held before; `create_goal` establishes them for the record
it creates. -/
theorem claim_C4_invariants {s : ContractState} (hs : stateInv s)
    (contractAddr now owner goal_id : Nat) (amount : Int)
    (lock_duration interest_rate : Nat) :
    stateInv (create_goal s contractAddr now owner amount lock_duration
      interest_rate).1 ∧
    stateInv (compound_interest s now owner goal_id).1 ∧
    stateInv (withdraw s contractAddr now owner goal_id).1 ∧
    stateInv (emergency_withdraw s contractAddr now owner goal_id).1 :=
  ⟨create_inv hs rfl, compound_inv hs rfl, withdraw_inv hs rfl,
   emergency_inv hs rfl⟩

/-- C4 witness: the invariant preservation at the concrete sample
state. -/
theorem claim_C4_witness :
    stateInv sampleState ∧
      (stateInv (create_goal sampleState 99 86400 2 500 86400 500).1 ∧
       stateInv (compound_interest sampleState 86400 2 0).1 ∧
       stateInv (withdraw sampleState 99 86400 2 0).1 ∧
       stateInv (emergency_withdraw sampleState 99 86400 2 0).1) :=
  ⟨sampleState_inv,
   claim_C4_invariants sampleState_inv 99 86400 2 0 500 86400 500⟩

/-- C6: interest accrual is monotone in the elapsed duration, for any
non-negative balance and any rate, whenever both computations
succeed. -/
theorem claim_C6_monotonic_accrual {balance : Int} {rate e1 e2 : Nat}
    {i1 i2 : Int} (hb : 0 ≤ balance) (h12 : e1 < e2)
    (h1 : accrue balance rate e1 = .ok i1)
    (h2 : accrue balance rate e2 = .ok i2) : i1 ≤ i2 := by
  obtain ⟨hi1, _, _⟩ := accrue_ok_elim h1
  obtain ⟨hi2, _, _⟩ := accrue_ok_elim h2
  subst hi1 hi2
  have hbr : 0 ≤ balance * Int.ofNat rate :=
    mul_nonneg hb (Int.ofNat_nonneg _)
  have hnum : balance * Int.ofNat rate * Int.ofNat e1 ≤
      balance * Int.ofNat rate * Int.ofNat e2 := by
    apply mul_le_mul_of_nonneg_left _ hbr
    exact Int.ofNat_le.mpr h12.le
  have h0 : 0 ≤ balance * Int.ofNat rate * Int.ofNat e1 :=
    mul_nonneg hbr (Int.ofNat_nonneg _)
  rw [Int.tdiv_eq_ediv h0 divisor_pos.le,
      Int.tdiv_eq_ediv (h0.trans hnum) divisor_pos.le]
  exact Int.ediv_le_ediv divisor_pos hnum

/-- C6 witness: one year vs two years on a concrete balance and rate. -/
theorem claim_C6_witness : (0 : Int) ≤ 1000 ∧ 31536000 < 63072000 ∧
    (50 : Int) ≤ 100 :=
  ⟨by norm_num, by norm_num,
   @claim_C6_monotonic_accrual 1000 500 31536000 63072000 50 100
     (by norm_num) (by norm_num) rfl rfl⟩

/-- C7: for every amount ≤ 0, `create_goal` fails `InvalidAmount` with
no storage write and no token transfer — the returned state is the
input state and the effect trace is empty. -/
theorem claim_C7_invalid_amount {s : ContractState}
    {contractAddr now owner : Nat} {amount : Int}
    {lock_duration interest_rate : Nat} (h : amount ≤ 0) :
    create_goal s contractAddr now owner amount lock_duration interest_rate
      = (s, [], .error .InvalidAmount) := by
  unfold create_goal
  rw [if_pos h]

/-- C7 witness: the zero amount at the concrete sample state. -/
theorem claim_C7_witness :
    (0 : Int) ≤ 0 ∧
      create_goal sampleState 99 0 2 0 86400 500
        = (sampleState, [], .error .InvalidAmount) :=
  ⟨le_refl 0, claim_C7_invalid_amount (le_refl 0)⟩

/-- C8: boundary behavior of `create_goal` validation: lock durations
86400 and 315360000 succeed, 86399 and 315360001 fail
`InvalidDuration`; interest rate 5000 succeeds, 5001 fails
`RateTooHigh` (all other inputs valid). -/
theorem claim_C8_boundary_validation :
    (create_goal sampleState 99 0 2 500 86400 500).2.2 = .ok 1 ∧
    (create_goal sampleState 99 0 2 500 315360000 500).2.2 = .ok 1 ∧
    (create_goal sampleState 99 0 2 500 86399 500).2.2
      = .error .InvalidDuration ∧
    (create_goal sampleState 99 0 2 500 315360001 500).2.2
      = .error .InvalidDuration ∧
    (create_goal sampleState 99 0 2 500 86400 5000).2.2 = .ok 1 ∧
    (create_goal sampleState 99 0 2 500 86400 5001).2.2
      = .error .RateTooHigh :=
  ⟨rfl, rfl, rfl, rfl, rfl, rfl⟩

/-- C9: `compound_interest` on an active goal at a current time equal
to `last_compound_time` succeeds with no storage write, and calling it
twice at that instant succeeds both times leaving the state
identical. -/
theorem claim_C9_zero_elapsed_noop {s : ContractState}
    {now owner goal_id : Nat} {goal : SavingsGoal}
    (hgoal : s.goals (owner, goal_id) = some goal)
    (hact : goal.is_active = true)
    (hnow : now = goal.last_compound_time) :
    compound_interest s now owner goal_id = (s, [], .ok ()) ∧
    compound_interest (compound_interest s now owner goal_id).1 now owner
      goal_id = (s, [], .ok ()) := by
  have h1 : compound_interest s now owner goal_id = (s, [], .ok ()) := by
    unfold compound_interest
    rw [hgoal]
    subst hnow
    simp [hact, u64CheckedSub]
  refine ⟨h1, ?_⟩
  rw [h1]
  exact h1

/-- C9 witness: the no-op compounding at the concrete sample state. -/
theorem claim_C9_witness :
    compound_interest sampleState 0 2 0 = (sampleState, [], .ok ()) ∧
    compound_interest (compound_interest sampleState 0 2 0).1 0 2 0
      = (sampleState, [], .ok ()) :=
  claim_C9_zero_elapsed_noop rfl rfl rfl

/-- C3: on an active goal with positive elapsed time since
`last_compound_time`, `compound_interest` adds to `accrued_interest`
exactly `(principal + accrued_interest) * interest_rate * elapsed`
truncated-divided by `SECONDS_PER_YEAR * BASIS_POINTS = 31536000 *
10000` (the two checked multiplications happen before the single
division, which truncates toward zero), and fails with `Overflow` when
either multiplication leaves the signed 128-bit domain. -/
theorem claim_C3_interest_formula {s : ContractState}
    {now owner goal_id : Nat} {goal : SavingsGoal} {total : Int}
    (hgoal : s.goals (owner, goal_id) = some goal)
    (hact : goal.is_active = true)
    (hlt : goal.last_compound_time < now)
    (htotal : i128CheckedAdd goal.principal goal.accrued_interest
      = some total) :
    (∀ m1 m2 na,
      i128CheckedMul total (Int.ofNat goal.interest_rate) = some m1 →
      i128CheckedMul m1 (Int.ofNat (now - goal.last_compound_time))
        = some m2 →
      i128CheckedAdd goal.accrued_interest
        (Int.tdiv m2 (SECONDS_PER_YEAR * BASIS_POINTS)) = some na →
      ∃ g', compound_interest s now owner goal_id =
          (putGoal s owner goal_id g',
           [Event.setGoal owner goal_id g'], .ok ()) ∧
        g'.accrued_interest = goal.accrued_interest +
          Int.tdiv ((goal.principal + goal.accrued_interest) *
              Int.ofNat goal.interest_rate *
              Int.ofNat (now - goal.last_compound_time))
            (SECONDS_PER_YEAR * BASIS_POINTS) ∧
        g'.last_compound_time = now ∧
        g'.principal = goal.principal) ∧
    ((i128CheckedMul total (Int.ofNat goal.interest_rate) = none ∨
      ∃ m1, i128CheckedMul total (Int.ofNat goal.interest_rate) = some m1 ∧
        i128CheckedMul m1 (Int.ofNat (now - goal.last_compound_time))
          = none) →
      compound_interest s now owner goal_id
        = (s, [], .error .Overflow)) := by
  have hsub : u64CheckedSub now goal.last_compound_time
      = some (now - goal.last_compound_time) := by
    unfold u64CheckedSub
    rw [if_pos hlt.le]
  have hne : ¬(now - goal.last_compound_time = 0) := by omega
  constructor
  · intro m1 m2 na h1 h2 h3
    have hacc := accrue_eq_of_muls h1 h2
    obtain ⟨hm1, _, _⟩ := i128Checked_eq_some h1
    obtain ⟨hm2, _, _⟩ := i128Checked_eq_some h2
    obtain ⟨hna, _, _⟩ := i128Checked_eq_some h3
    obtain ⟨htt, _, _⟩ := i128Checked_eq_some htotal
    refine ⟨{ goal with accrued_interest := na, last_compound_time := now },
      ?_, ?_, rfl, rfl⟩
    · unfold compound_interest
      rw [hgoal]
      simp [hact, hsub, hne, htotal, hacc, h3]
    · show na = _
      rw [hna, hm2, hm1, htt]
  · intro hov
    rcases hov with h1 | ⟨m1, h1, h2⟩
    · have hacc := @accrue_overflow_fst total goal.interest_rate
        (now - goal.last_compound_time) h1
      unfold compound_interest
      rw [hgoal]
      simp [hact, hsub, hne, htotal, hacc]
    · have hacc := accrue_overflow_snd h1 h2
      unfold compound_interest
      rw [hgoal]
      simp [hact, hsub, hne, htotal, hacc]

/-- C3 witness: the formula at the concrete sample state (rate 0, one
day elapsed). -/
theorem claim_C3_witness :
    ∃ g', compound_interest sampleState 86400 2 0 =
        (putGoal sampleState 2 0 g', [Event.setGoal 2 0 g'], .ok ()) ∧
      g'.accrued_interest = sampleGoal.accrued_interest +
        Int.tdiv ((sampleGoal.principal + sampleGoal.accrued_interest) *
            Int.ofNat sampleGoal.interest_rate *
            Int.ofNat (86400 - sampleGoal.last_compound_time))
          (SECONDS_PER_YEAR * BASIS_POINTS) ∧
      g'.last_compound_time = 86400 ∧
      g'.principal = sampleGoal.principal :=
  (@claim_C3_interest_formula sampleState 86400 2 0 sampleGoal 1000
    rfl rfl (by norm_num [sampleGoal]) rfl).1 0 0 0 rfl rfl rfl

/-- C5 (counterexample): at a current time equal to
`last_compound_time` (elapsed 0), `get_current_balance` still runs the
interest multiplication and can fail `Overflow`, while
`compound_interest` returns early as a no-op and the subsequent balance
read succeeds — so the two observations differ on an active goal at
`now = last_compound_time`. -/
theorem claim_C5_counterexample :
    get_current_balance bigState 0 2 0 = .error .Overflow ∧
    compound_then_balance bigState 0 2 0 = .ok (2 ^ 127 - 1) ∧
    (Except.error Error.Overflow : Except Error Int) ≠ .ok (2 ^ 127 - 1) :=
  ⟨rfl, rfl, fun h => Except.noConfusion h⟩

/-- C5 (amended): for every active goal with `principal > 0` and
`accrued_interest ≥ 0` and every current time strictly later than
`last_compound_time`, `get_current_balance` — stateless by construction,
so `last_compound_time` is unchanged — returns exactly what calling
`compound_interest` at that instant and then reading
`principal + accrued_interest` yields (errors included). -/
theorem claim_C5_balance_refines_compound {s : ContractState}
    {now owner goal_id : Nat} {goal : SavingsGoal}
    (hgoal : s.goals (owner, goal_id) = some goal)
    (hact : goal.is_active = true)
    (hp : 0 < goal.principal) (ha : 0 ≤ goal.accrued_interest)
    (hlt : goal.last_compound_time < now) :
    get_current_balance s now owner goal_id
      = compound_then_balance s now owner goal_id := by
  have hsub : u64CheckedSub now goal.last_compound_time
      = some (now - goal.last_compound_time) := by
    unfold u64CheckedSub
    rw [if_pos hlt.le]
  have hne : ¬(now - goal.last_compound_time = 0) := by omega
  have hminle : I128_MIN ≤ 0 := by norm_num [I128_MIN]
  cases htotal : i128CheckedAdd goal.principal goal.accrued_interest with
  | none =>
    unfold get_current_balance compound_then_balance compound_interest
    rw [hgoal]
    simp [hact, hsub, hne, htotal]
  | some total =>
    obtain ⟨htt, htl, hth⟩ := i128Checked_eq_some htotal
    cases hacc : accrue total goal.interest_rate
        (now - goal.last_compound_time) with
    | error err =>
      unfold get_current_balance compound_then_balance compound_interest
      rw [hgoal]
      simp [hact, hsub, hne, htotal, hacc]
    | ok i =>
      have hi : 0 ≤ i := accrue_nonneg (by omega) hacc
      cases hfin : i128CheckedAdd total i with
      | none =>
        cases hacc2 : i128CheckedAdd goal.accrued_interest i with
        | none =>
          unfold get_current_balance compound_then_balance compound_interest
          rw [hgoal]
          simp [hact, hsub, hne, htotal, hacc, hfin, hacc2]
        | some na =>
          obtain ⟨hna, _, _⟩ := i128Checked_eq_some hacc2
          have hread : i128CheckedAdd goal.principal na = none := by
            have h1 : goal.principal + na = total + i := by omega
            unfold i128CheckedAdd at hfin ⊢
            rw [h1]
            exact hfin
          unfold get_current_balance compound_then_balance compound_interest
          rw [hgoal]
          simp [hact, hsub, hne, htotal, hacc, hfin, hacc2, putGoal_goals,
            hread]
      | some v =>
        obtain ⟨hv, hvl, hvh⟩ := i128Checked_eq_some hfin
        have hacc2 : i128CheckedAdd goal.accrued_interest i
            = some (goal.accrued_interest + i) := by
          unfold i128CheckedAdd
          exact i128Checked_of_range (by omega) (by omega)
        have hread : i128CheckedAdd goal.principal
            (goal.accrued_interest + i)
            = some (goal.principal + (goal.accrued_interest + i)) := by
          unfold i128CheckedAdd
          exact i128Checked_of_range (by omega) (by omega)
        unfold get_current_balance compound_then_balance compound_interest
        rw [hgoal]
        simp only [hact, hsub, hne, htotal, hacc, hfin, hacc2, putGoal_goals,
          hread]
        simp [hact, hne, putGoal_goals, hread, Except.ok.injEq]
        omega

/-- C5 witness: the refinement at the concrete sample state one day
after the last compounding. -/
theorem claim_C5_witness :
    get_current_balance sampleState 86400 2 0
      = compound_then_balance sampleState 86400 2 0 :=
  @claim_C5_balance_refines_compound sampleState 86400 2 0 sampleGoal
    rfl rfl (by norm_num [sampleGoal]) (by norm_num [sampleGoal])
    (by norm_num [sampleGoal])

/-- C10: every successful `emergency_withdraw` splits the goal's total
balance at that instant exactly: the trace ends with the terminal
write of the goal record `g` followed by the transfer of the returned
amount `w` to the owner and the transfer of the penalty to the admin,
with `penalty = (g.principal + g.accrued_interest) * penalty_rate /
10000` truncated, `w = total - penalty`, and `w + penalty` exactly the
total balance — no value is created or destroyed. -/
theorem claim_C10_penalty_split {s s' : ContractState}
    {caddr now owner goal_id : Nat} {tr : List Event} {w : Int}
    (h : emergency_withdraw s caddr now owner goal_id = (s', tr, .ok w)) :
    ∃ tr1 g adm penalty,
      s.admin = some adm ∧
      g.is_active = false ∧
      tr = tr1 ++ [Event.setGoal owner goal_id g,
                   Event.transfer caddr owner w,
                   Event.transfer caddr adm penalty] ∧
      penalty = Int.tdiv ((g.principal + g.accrued_interest) *
          Int.ofNat (s.emergencyPenalty.getD 1000)) BASIS_POINTS ∧
      w = g.principal + g.accrued_interest - penalty ∧
      w + penalty = g.principal + g.accrued_interest := by
  unfold emergency_withdraw at h
  split at h
  · simp only [Prod.mk.injEq] at h
    exact absurd h.2.2 (by simp)
  · rename_i s1 tr1 u heq
    obtain ⟨htok, hadm, hpenr⟩ := compound_instance heq
    split at h
    · simp only [Prod.mk.injEq] at h
      exact absurd h.2.2 (by simp)
    · rename_i goal hgoal
      split at h
      · simp only [Prod.mk.injEq] at h
        exact absurd h.2.2 (by simp)
      · rename_i hactf
        split at h
        · simp only [Prod.mk.injEq] at h
          exact absurd h.2.2 (by simp)
        · rename_i total htotal
          dsimp only at h
          split at h
          · simp only [Prod.mk.injEq] at h
            exact absurd h.2.2 (by simp)
          · rename_i pm hpm
            split at h
            · simp only [Prod.mk.injEq] at h
              exact absurd h.2.2 (by simp)
            · rename_i penalty hpen
              split at h
              · simp only [Prod.mk.injEq] at h
                exact absurd h.2.2 (by simp)
              · rename_i wa hwa
                split at h
                · simp only [Prod.mk.injEq] at h
                  exact absurd h.2.2 (by simp)
                · split at h
                  · simp only [Prod.mk.injEq] at h
                    exact absurd h.2.2 (by simp)
                  · rename_i adm hadm2
                    simp only [Prod.mk.injEq, Except.ok.injEq] at h
                    obtain ⟨hs', htr, hw⟩ := h
                    subst hw
                    obtain ⟨htt, _, _⟩ := i128Checked_eq_some htotal
                    obtain ⟨hpm', _, _⟩ := i128Checked_eq_some hpm
                    have hpen' := i128CheckedDiv_eq_some hpen
                    obtain ⟨hwa', _, _⟩ := i128Checked_eq_some hwa
                    rw [putGoal_admin] at hadm2
                    refine ⟨tr1, { goal with is_active := false }, adm,
                      penalty, ?_, rfl, ?_, ?_, ?_, ?_⟩
                    · rw [← hadm, hadm2]
                    · rw [← htr]
                      simp
                    · rw [hpen', hpm', htt, hpenr]
                    · show wa = goal.principal + goal.accrued_interest - penalty
                      omega
                    · show wa + penalty
                        = goal.principal + goal.accrued_interest
                      omega

/-- C10 witness: the penalty split at the concrete sample state
(total 1000, penalty rate 1000 bps, penalty 100, payout 900). -/
theorem claim_C10_witness :
    ∃ tr1 g adm penalty,
      sampleState.admin = some adm ∧
      g.is_active = false ∧
      (emergency_withdraw sampleState 99 86400 2 0).2.1
        = tr1 ++ [Event.setGoal 2 0 g,
                  Event.transfer 99 2 900,
                  Event.transfer 99 adm penalty] ∧
      penalty = Int.tdiv ((g.principal + g.accrued_interest) *
          Int.ofNat (sampleState.emergencyPenalty.getD 1000)) BASIS_POINTS ∧
      (900 : Int) = g.principal + g.accrued_interest - penalty ∧
      (900 : Int) + penalty = g.principal + g.accrued_interest :=
  @claim_C10_penalty_split sampleState
    (emergency_withdraw sampleState 99 86400 2 0).1 99 86400 2 0
    ((emergency_withdraw sampleState 99 86400 2 0).2.1) 900 rfl

end TimeLockedSavings
